import Mathlib

/-!
Shallow embedding of the open_rgb_client repository (src/color_manager.rs,
src/main.rs) for verification of its natural-language specification.

Modelling conventions:
* Rust `f32` arithmetic is modelled by exact rational arithmetic (`ℚ`).
  The one structural (non-rounding) difference of IEEE arithmetic that the
  code can hit — division by zero producing NaN — is made explicit: the
  smoothing read returns `Option ℚ`, with `none` standing for the
  non-rational result NaN.
* `u8` channel values are `Fin 256`; the Rust saturating cast `f32 as u8`
  (truncate toward zero, clamp to [0,255], so `min 255 (max 0 ⌊x⌋)`) is
  `f32toU8`.
* A Rust `panic!` (a process abort, not a recoverable error) is modelled by
  the explicit outcome type `DispatchAbort`; `Except.error` carrying a
  `DispatchAbort` means "the process aborts here", not a caught error.
-/

namespace ORGB

/-- ColorRGB from the openrgb crate: three u8 channels (r, g, b). -/
@[ext]
structure Color where
  r : Fin 256
  g : Fin 256
  b : Fin 256
deriving DecidableEq, Repr

/-- The Rust saturating cast `x as u8` applied to an f32 value `x`:
truncate toward zero and clamp into [0, 255].  For every rational `x`,
`min 255 (max 0 ⌊x⌋)` equals that saturating truncation (truncation and
floor agree on nonnegative values, and both saturate identically outside
[0, 255]). -/
def f32toU8 (x : ℚ) : Fin 256 :=
  ⟨(min 255 (max 0 (Int.floor x))).toNat, by omega⟩

/-- color_manager.rs lines 64-66: `(1.0 - value) * start + (value * end)`. -/
def lerp (value start_v end_v : ℚ) : ℚ :=
  (1 - value) * start_v + value * end_v

/-- color_manager.rs lines 68-74: per-channel linear interpolation followed by
the `as u8` cast. -/
def lerp_color (value : ℚ) (start_color end_color : Color) : Color :=
  ⟨f32toU8 (lerp value start_color.r.val end_color.r.val),
   f32toU8 (lerp value start_color.g.val end_color.g.val),
   f32toU8 (lerp value start_color.b.val end_color.b.val)⟩

/-- color_manager.rs lines 76-92: scale `value` by `size`; LED `index` gets
interpolation factor `(value * size - index).clamp(0.0, 1.0)`.  Rust
`x.clamp(lo, hi)` is `min (max x lo) hi`. -/
def generate_gradient_led_colors (value : ℚ) (start_color end_color : Color)
    (size : Nat) : List Color :=
  (List.range size).map fun (index : Nat) =>
    lerp_color (min (max (value * (size : ℚ) - (index : ℚ)) 0) 1) start_color end_color

/-- color_manager.rs lines 94-103: `size` identical copies of
`lerp_color value start end` (no clamping of `value` is performed). -/
def generate_block_led_colors (value : ℚ) (start_color end_color : Color)
    (size : Nat) : List Color :=
  List.replicate size (lerp_color value start_color end_color)

/-- A zone of a controller topology: a name and an LED count
(openrgb `Zone { name, leds_count, .. }`). -/
structure Zone where
  name : String
  leds_count : Nat
deriving DecidableEq, Repr

/-- A controller topology snapshot: its name, zones, and `controller.leds.len()`. -/
structure ControllerTop where
  name : String
  zones : List Zone
  led_count : Nat
deriving DecidableEq, Repr

/-- The two process-aborting outcomes of the per-zone dispatch in
color_manager.rs lines 26-53.  Both model aborts (a Rust `panic!` /
overflow), not recoverable error values: `panicUnknownZone` is the
`panic!("Unknown zone!")` arm at line 52, and `subUnderflow` is the
unsigned underflow of `zone.leds_count as usize - 1` at line 47 when the
zone has 0 LEDs. -/
inductive DispatchAbort
  | panicUnknownZone
  | subUnderflow
deriving DecidableEq, Repr

/-- color_manager.rs lines 26-53: per-zone color selection for the
"X570 AORUS ELITE" controller.  The "Motherboard" arm computes
`zone.leds_count as usize - 1` in unsigned arithmetic, which aborts when
`leds_count = 0`; otherwise it appends a 1-LED block and an
`(leds_count - 1)`-LED block. -/
def zone_colors (cpu_usage : ℚ) (start_color end_color : Color) (zone : Zone) :
    Except DispatchAbort (List Color) :=
  match zone.name with
  | "D_LED1 Bottom" =>
      .ok (generate_block_led_colors cpu_usage start_color end_color zone.leds_count)
  | "D_LED2 Top" =>
      .ok (generate_gradient_led_colors cpu_usage start_color end_color zone.leds_count)
  | "Motherboard" =>
      if zone.leds_count = 0 then
        .error .subUnderflow
      else
        .ok (generate_block_led_colors cpu_usage start_color end_color 1 ++
             generate_block_led_colors cpu_usage start_color end_color (zone.leds_count - 1))
  | _ => .error .panicUnknownZone

/-- The `flat_map ... collect` over zones in color_manager.rs lines 23-54:
concatenates per-zone colors in zone order; an abort in any zone aborts the
whole computation (a panic unwinds through the iterator). -/
def zones_colors (cpu_usage : ℚ) (start_color end_color : Color) :
    List Zone → Except DispatchAbort (List Color)
  | [] => .ok []
  | zone :: rest => do
      let c ← zone_colors cpu_usage start_color end_color zone
      let cs ← zones_colors cpu_usage start_color end_color rest
      return c ++ cs

/-- color_manager.rs lines 16-56: the per-controller `colors` computation of
`set_all_light_color` (the Device Topology Dispatcher), keyed on the
controller's name. -/
def controller_colors (cpu_usage gpu_usage : ℚ) (start_color end_color : Color)
    (controller : ControllerTop) : Except DispatchAbort (List Color) :=
  match controller.name with
  | "ENE DRAM" =>
      .ok (generate_gradient_led_colors (1 - cpu_usage) end_color start_color
            controller.led_count)
  | "EVGA GeForce RTX 3080Ti FTW3 Ultra" =>
      .ok (generate_block_led_colors gpu_usage start_color end_color
            controller.led_count)
  | "X570 AORUS ELITE" =>
      zones_colors cpu_usage start_color end_color controller.zones
  | _ =>
      .ok (generate_block_led_colors cpu_usage start_color end_color
            controller.led_count)

/-! Smoothed Sampler: the ring-buffer smoothing performed inline in
`sample_and_set` (main.rs lines 262-309) with the capacity computed in
`launch_client` (main.rs lines 228-230). -/

/-- main.rs line 42: `SAMPLE_TIME: f32 = 5.0` (seconds). -/
def SAMPLE_TIME : ℚ := 5

/-- main.rs line 43: `SAMPLE_RATE: u64 = 500` (milliseconds). -/
def SAMPLE_RATE : Nat := 500

/-- main.rs line 44: `(SAMPLE_TIME * (1.0 + 1.0 / SAMPLE_RATE as f32)) as usize`
(truncating f32-to-usize cast of a nonnegative value, i.e. the floor). -/
def SAMPLE_BUFFER_SIZE : Nat :=
  (Int.floor (SAMPLE_TIME * (1 + 1 / (SAMPLE_RATE : ℚ)))).toNat

/-- main.rs lines 311-321: the u32 bit-twiddling `next_power_of_two`.
`value -= 1` wraps on u32, so the whole computation is modelled mod 2^32. -/
def next_power_of_two (value : Nat) : Nat :=
  let v := (value + (2 ^ 32 - 1)) % 2 ^ 32
  let v := v ||| (v >>> 1)
  let v := v ||| (v >>> 2)
  let v := v ||| (v >>> 4)
  let v := v ||| (v >>> 8)
  let v := v ||| (v >>> 16)
  (v + 1) % 2 ^ 32

/-- `AllocRingBuffer::push` for a buffer of capacity `cap` (with_capacity is
called with a power of two; `cap ≥ 1` in the program): append the new sample,
evicting the oldest entry (the head) once the buffer is at capacity.  The
list holds samples oldest first, as `iter()` yields them. -/
def ring_push (cap : Nat) (buf : List ℚ) (x : ℚ) : List ℚ :=
  if buf.length < cap then buf ++ [x] else buf.tail ++ [x]

/-- Pushing a sequence of samples in order into the ring buffer. -/
def ring_push_all (cap : Nat) (buf : List ℚ) (xs : List ℚ) : List ℚ :=
  xs.foldl (ring_push cap) buf

/-- The `iter().copied().reduce(|accum, sample| accum + sample).unwrap_or_default()`
sum in main.rs lines 276-280 / 288-292: fold addition over the buffer,
yielding 0 when it is empty. -/
def sample_sum (buf : List ℚ) : ℚ :=
  buf.foldl (fun accum sample => accum + sample) 0

/-- The smoothing read in main.rs lines 276-281 / 288-293: the reduced sum
divided by `len() as f32`.  f32 division by a zero length does not produce a
rational (0.0 / 0.0 is NaN); the embedding returns `none` for that case. -/
def buffer_mean (buf : List ℚ) : Option ℚ :=
  if buf.length = 0 then none else some (sample_sum buf / buf.length)

/-! Control Loop and Lifecycle Coordinator: `launch_client` (main.rs lines
197-260) and `main` (line 99), modelled over finite traces of the outcomes of
its external interactions (shutdown-flag reads, select races, connect
attempts, `sample_and_set` cycles). -/

/-- Result of running the loop over a finite trace. -/
inductive LoopResult
  | ok        -- `return Ok(())`
  | err       -- `bail!` / error propagated out of launch_client
  | pending   -- trace exhausted with the loop still running
deriving DecidableEq, Repr

/-- One iteration of the service-mode connect loop (main.rs lines 200-222):
the value the `should_shutdown` check reads, whether the shutdown
notification wins the `select!`, and whether `OpenRGB::connect()` succeeds
when it runs. -/
structure ConnEvent where
  flag : Bool
  notifyWins : Bool
  connectOk : Bool
deriving DecidableEq, Repr

/-- One iteration of the service-mode sampling loop (main.rs lines 235-248):
the `should_shutdown` value read at the top, whether the notification wins
the `select!`, and whether `sample_and_set` succeeds when it runs. -/
structure CycleEvent where
  flag : Bool
  notifyWins : Bool
  cycleOk : Bool
deriving DecidableEq, Repr

/-- Outcome of the service-mode connect loop. -/
inductive ConnectOutcome
  | stopped    -- returned Ok(()) at a shutdown check before connecting
  | connected  -- broke out of the loop with a client
  | pending    -- trace exhausted, still retrying
deriving DecidableEq, Repr

/-- The service-mode connect loop (main.rs lines 200-222): check the shutdown
flag (return Ok), race the notification against `connect` (notified ⇒
`continue`), break on a successful connect, otherwise sleep 1 s and retry. -/
def connect_phase : List ConnEvent → ConnectOutcome
  | [] => .pending
  | ev :: rest =>
      if ev.flag then .stopped
      else if ev.notifyWins then connect_phase rest
      else if ev.connectOk then .connected
      else connect_phase rest

/-- The service-mode sampling loop (main.rs lines 235-248).  The second
component counts the `sample_and_set` invocations that run — each such
invocation is the only place a controller LED write is performed. -/
def service_sample_loop : List CycleEvent → LoopResult × Nat
  | [] => (.pending, 0)
  | ev :: rest =>
      if ev.flag then (.ok, 0)
      else if ev.notifyWins then service_sample_loop rest
      else if ev.cycleOk then
        let r := service_sample_loop rest
        (r.1, r.2 + 1)
      else (.err, 1)

/-- `launch_client` with `Some(shutdown_signal)` (service mode), as the
composition of the connect phase and the sampling loop.  (The nvml
initialization between the two phases is abstracted as succeeding; its
failure would only add another `err` exit.) -/
def launch_client_service (conns : List ConnEvent) (cycles : List CycleEvent) :
    LoopResult × Nat :=
  match connect_phase conns with
  | .stopped => (.ok, 0)
  | .pending => (.pending, 0)
  | .connected => service_sample_loop cycles

/-- The interactive-mode connect loop (main.rs lines 200-222 with
`shutdown_signal = None`): retry `OpenRGB::connect()` with a 1-second sleep
until an attempt succeeds; `true` iff the trace contains a success. -/
def connect_retry : List Bool → Bool
  | [] => false
  | ok :: rest => if ok then true else connect_retry rest

/-- The interactive-mode sampling loop (main.rs lines 250-259): run
`sample_and_set` forever; on the first error, `bail!` returns the error from
`launch_client`.  The second component counts `sample_and_set` invocations. -/
def interactive_cycles : List Bool → LoopResult × Nat
  | [] => (.pending, 0)
  | ok :: rest =>
      if ok then
        let r := interactive_cycles rest
        (r.1, r.2 + 1)
      else (.err, 1)

/-- `launch_client(None)` (interactive mode). -/
def launch_client_interactive (conns : List Bool) (cycles : List Bool) :
    LoopResult × Nat :=
  if connect_retry conns then interactive_cycles cycles else (.pending, 0)

/-- `main` with no arguments (main.rs line 99): `launch_client(None).await?` —
the `?` propagates any error out of `main`, so a `.err` result means the
process terminates with a non-zero status. -/
def main_interactive (conns : List Bool) (cycles : List Bool) : LoopResult × Nat :=
  launch_client_interactive conns cycles

/-- Distance between two channel values: the absolute difference of the u8
values.  Smaller distance = closer. -/
def chanDist (a b : Fin 256) : Nat :=
  max a.val b.val - min a.val b.val

/-- Distance of a color from a reference color, summed per channel;
"closeness to e" of an LED color c is smaller `colorDist c e`. -/
def colorDist (c d : Color) : Nat :=
  chanDist c.r d.r + chanDist c.g d.g + chanDist c.b d.b

/-! Helper lemmas about the color interpolation. -/

lemma lerp_eq (t a b : ℚ) : lerp t a b = a + t * (b - a) := by
  unfold lerp
  ring

lemma lerp_zero (a b : ℚ) : lerp 0 a b = a := by
  unfold lerp
  ring

lemma lerp_one (a b : ℚ) : lerp 1 a b = b := by
  unfold lerp
  ring

lemma lerp_bounds (t a b : ℚ) (h0 : 0 ≤ t) (h1 : t ≤ 1) :
    min a b ≤ lerp t a b ∧ lerp t a b ≤ max a b := by
  rcases le_total a b with hab | hab
  · rw [min_eq_left hab, max_eq_right hab]
    constructor
    · nlinarith [mul_nonneg h0 (sub_nonneg.2 hab), lerp_eq t a b]
    · nlinarith [mul_nonneg (sub_nonneg.2 h1) (sub_nonneg.2 hab), lerp_eq t a b]
  · rw [min_eq_right hab, max_eq_left hab]
    constructor
    · nlinarith [mul_nonneg (sub_nonneg.2 h1) (sub_nonneg.2 hab), lerp_eq t a b]
    · nlinarith [mul_nonneg h0 (sub_nonneg.2 hab), lerp_eq t a b]

lemma f32toU8_natCast (a : Fin 256) : f32toU8 ((a.val : ℚ)) = a := by
  apply Fin.ext
  have ha := a.isLt
  simp only [f32toU8, Int.floor_natCast]
  omega

lemma lerp_color_zero (s e : Color) : lerp_color 0 s e = s := by
  simp only [lerp_color, lerp_zero, f32toU8_natCast]

lemma lerp_color_one (s e : Color) : lerp_color 1 s e = e := by
  simp only [lerp_color, lerp_one, f32toU8_natCast]

/-- The saturating cast applied to an in-range lerp value: for `t ∈ [0,1]` the
channel value is exactly the floor (= truncation, the value being
nonnegative), and it lies between the two endpoint channels. -/
lemma f32toU8_lerp_val (t : ℚ) (a b : Fin 256) (h0 : 0 ≤ t) (h1 : t ≤ 1) :
    (f32toU8 (lerp t a.val b.val)).val =
      (Int.floor (lerp t (a.val : ℚ) (b.val : ℚ))).toNat ∧
    min a.val b.val ≤ (f32toU8 (lerp t a.val b.val)).val ∧
    (f32toU8 (lerp t a.val b.val)).val ≤ max a.val b.val := by
  obtain ⟨hlo, hhi⟩ := lerp_bounds t (a.val : ℚ) (b.val : ℚ) h0 h1
  have ha := a.isLt
  have hb := b.isLt
  have hfl : ((min a.val b.val : ℕ) : ℤ) ≤ Int.floor (lerp t (a.val : ℚ) (b.val : ℚ)) := by
    apply Int.le_floor.2
    refine le_trans (le_of_eq ?_) hlo
    push_cast
    rfl
  have hfu : Int.floor (lerp t (a.val : ℚ) (b.val : ℚ)) ≤ ((max a.val b.val : ℕ) : ℤ) := by
    have hle : lerp t (a.val : ℚ) (b.val : ℚ) ≤ ((max a.val b.val : ℕ) : ℚ) := by
      refine le_trans hhi (le_of_eq ?_)
      push_cast
      rfl
    exact_mod_cast (Int.floor_mono hle).trans_eq (Int.floor_natCast _)
  simp only [f32toU8]
  omega

/-- C9: for every pair of colors start, end and every t in [0,1], each channel
of `lerp_color t start end` equals `(1-t)*start_channel + t*end_channel`
truncated to an integer (the value is nonnegative, so truncation is the
floor), lies between the corresponding start and end channel values
inclusive, and `lerp_color 0 s e = s` and `lerp_color 1 s e = e`. -/
theorem lerp_color_spec (t : ℚ) (s e : Color) (h0 : 0 ≤ t) (h1 : t ≤ 1) :
    ((lerp_color t s e).r.val = (Int.floor (lerp t (s.r.val : ℚ) (e.r.val : ℚ))).toNat ∧
     (lerp_color t s e).g.val = (Int.floor (lerp t (s.g.val : ℚ) (e.g.val : ℚ))).toNat ∧
     (lerp_color t s e).b.val = (Int.floor (lerp t (s.b.val : ℚ) (e.b.val : ℚ))).toNat) ∧
    (min s.r.val e.r.val ≤ (lerp_color t s e).r.val ∧
     (lerp_color t s e).r.val ≤ max s.r.val e.r.val ∧
     min s.g.val e.g.val ≤ (lerp_color t s e).g.val ∧
     (lerp_color t s e).g.val ≤ max s.g.val e.g.val ∧
     min s.b.val e.b.val ≤ (lerp_color t s e).b.val ∧
     (lerp_color t s e).b.val ≤ max s.b.val e.b.val) ∧
    lerp_color 0 s e = s ∧ lerp_color 1 s e = e := by
  obtain ⟨hr1, hr2, hr3⟩ := f32toU8_lerp_val t s.r e.r h0 h1
  obtain ⟨hg1, hg2, hg3⟩ := f32toU8_lerp_val t s.g e.g h0 h1
  obtain ⟨hb1, hb2, hb3⟩ := f32toU8_lerp_val t s.b e.b h0 h1
  exact ⟨⟨hr1, hg1, hb1⟩, ⟨hr2, hr3, hg2, hg3, hb2, hb3⟩,
    lerp_color_zero s e, lerp_color_one s e⟩

/-- Witness for C9 at t = 1/2, s = black, e = red. -/
theorem lerp_color_spec_witness :
    lerp_color 0 ⟨0, 0, 0⟩ ⟨255, 0, 0⟩ = ⟨0, 0, 0⟩ ∧
    lerp_color 1 ⟨0, 0, 0⟩ ⟨255, 0, 0⟩ = ⟨255, 0, 0⟩ :=
  (lerp_color_spec (1/2) ⟨0, 0, 0⟩ ⟨255, 0, 0⟩ (by norm_num) (by norm_num)).2.2

/-- C6: for every n ≥ 1, t in [0,1] and endpoints s, e:
`generate_gradient_led_colors t s e n` has length n, its LED at index i is
`lerp_color ((t*n - i).clamp 0 1) s e`, the t = 0 gradient is all-s, and the
t = 1 gradient is all-e. -/
theorem gradient_spec (t : ℚ) (s e : Color) (n : Nat)
    (hn : 1 ≤ n) (h0 : 0 ≤ t) (h1 : t ≤ 1) :
    (generate_gradient_led_colors t s e n).length = n ∧
    (∀ i, i < n → (generate_gradient_led_colors t s e n)[i]? =
        some (lerp_color (min (max (t * n - i) 0) 1) s e)) ∧
    generate_gradient_led_colors 0 s e n = List.replicate n s ∧
    generate_gradient_led_colors 1 s e n = List.replicate n e := by
  refine ⟨by simp only [generate_gradient_led_colors, List.length_map, List.length_range],
    fun i hi => ?_, ?_, ?_⟩
  · simp only [generate_gradient_led_colors, List.getElem?_map, List.getElem?_range hi,
      Option.map_some']
  · rw [List.eq_replicate_iff]
    refine ⟨by simp only [generate_gradient_led_colors, List.length_map, List.length_range],
      fun c hc => ?_⟩
    simp only [generate_gradient_led_colors, List.mem_map, List.mem_range] at hc
    obtain ⟨i, hi, rfl⟩ := hc
    have hle : (0 : ℚ) * n - (i : ℚ) ≤ 0 := by
      have hi0 : (0 : ℚ) ≤ (i : ℚ) := by positivity
      linarith
    rw [max_eq_right hle, min_eq_left (by norm_num : (0:ℚ) ≤ 1), lerp_color_zero]
  · rw [List.eq_replicate_iff]
    refine ⟨by simp only [generate_gradient_led_colors, List.length_map, List.length_range],
      fun c hc => ?_⟩
    simp only [generate_gradient_led_colors, List.mem_map, List.mem_range] at hc
    obtain ⟨i, hi, rfl⟩ := hc
    have h1le : (1 : ℚ) ≤ (1 : ℚ) * n - (i : ℚ) := by
      have : (i : ℚ) + 1 ≤ (n : ℚ) := by exact_mod_cast hi
      linarith
    rw [max_eq_left ((by norm_num : (0:ℚ) ≤ 1).trans h1le), min_eq_right h1le,
      lerp_color_one]

/-- Evaluation helper: the saturating cast at a value with a known in-range
floor. -/
lemma f32toU8_eval (x : ℚ) (m : ℕ) (hm : m < 256) (hx : Int.floor x = m) :
    f32toU8 x = ⟨m, hm⟩ := by
  apply Fin.ext
  simp only [f32toU8, hx]
  omega

/-- The element formula of the gradient (shared by several proofs). -/
lemma gradient_getElem (t : ℚ) (s e : Color) (n i : Nat) (hi : i < n) :
    (generate_gradient_led_colors t s e n)[i]? =
      some (lerp_color (min (max (t * (n : ℚ) - (i : ℚ)) 0) 1) s e) := by
  simp only [generate_gradient_led_colors, List.getElem?_map, List.getElem?_range hi,
    Option.map_some']

/-- Out-of-range indices of the gradient yield none. -/
lemma gradient_getElem_lt (t : ℚ) (s e : Color) (n i : Nat) (c : Color)
    (h : (generate_gradient_led_colors t s e n)[i]? = some c) : i < n := by
  by_contra hge
  rw [List.getElem?_eq_none] at h
  · exact Option.noConfusion h
  · simp only [generate_gradient_led_colors, List.length_map, List.length_range]
    omega

/-- As the interpolation factor decreases within [0,1], the resulting channel
moves away from the end channel: the channel distance to `b` is antitone in
the factor. -/
lemma chanDist_lerp_antitone (u u' : ℚ) (a b : Fin 256)
    (h0 : 0 ≤ u') (hle : u' ≤ u) (h1 : u ≤ 1) :
    chanDist (f32toU8 (lerp u (a.val : ℚ) (b.val : ℚ))) b ≤
      chanDist (f32toU8 (lerp u' (a.val : ℚ) (b.val : ℚ))) b := by
  have h0u : 0 ≤ u := h0.trans hle
  have h1u : u' ≤ 1 := hle.trans h1
  obtain ⟨hu1, hu2, hu3⟩ := f32toU8_lerp_val u a b h0u h1
  obtain ⟨hv1, hv2, hv3⟩ := f32toU8_lerp_val u' a b h0 h1u
  have hb := b.isLt
  have ha := a.isLt
  rcases le_total (a.val : ℚ) (b.val : ℚ) with hab | hab
  · have hmono : lerp u' (a.val : ℚ) (b.val : ℚ) ≤ lerp u (a.val : ℚ) (b.val : ℚ) := by
      rw [lerp_eq, lerp_eq]
      nlinarith [mul_nonneg (sub_nonneg.2 hle) (sub_nonneg.2 hab)]
    have hf := Int.floor_mono hmono
    have habn : a.val ≤ b.val := by exact_mod_cast hab
    simp only [chanDist]
    omega
  · have hmono : lerp u (a.val : ℚ) (b.val : ℚ) ≤ lerp u' (a.val : ℚ) (b.val : ℚ) := by
      rw [lerp_eq, lerp_eq]
      nlinarith [mul_nonneg (sub_nonneg.2 hle) (sub_nonneg.2 hab)]
    have hf := Int.floor_mono hmono
    have habn : b.val ≤ a.val := by exact_mod_cast hab
    simp only [chanDist]
    omega

/-- Witness for C6 at t = 1/2, n = 2, s = black, e = red. -/
theorem gradient_spec_witness :
    generate_gradient_led_colors 0 ⟨0, 0, 0⟩ ⟨255, 0, 0⟩ 2 = List.replicate 2 ⟨0, 0, 0⟩ ∧
    generate_gradient_led_colors 1 ⟨0, 0, 0⟩ ⟨255, 0, 0⟩ 2 = List.replicate 2 ⟨255, 0, 0⟩ :=
  ⟨(gradient_spec (1/2) ⟨0, 0, 0⟩ ⟨255, 0, 0⟩ 2 (by norm_num) (by norm_num)
      (by norm_num)).2.2.1,
   (gradient_spec (1/2) ⟨0, 0, 0⟩ ⟨255, 0, 0⟩ 2 (by norm_num) (by norm_num)
      (by norm_num)).2.2.2⟩

/-- C7 counterexample: the sequence produced by the gradient is NOT
monotonically non-decreasing in closeness to the end color as the LED index
increases.  At t = 1/2, s = black, e = red, n = 2, LED 0 is exactly `e`
(distance 0 from e) and LED 1 is exactly `s` (distance 255 from e): closeness
to e strictly DEcreases from index 0 to index 1. -/
theorem gradient_closeness_not_monotone_up :
    (generate_gradient_led_colors (1/2) ⟨0, 0, 0⟩ ⟨255, 0, 0⟩ 2)[0]? = some ⟨255, 0, 0⟩ ∧
    (generate_gradient_led_colors (1/2) ⟨0, 0, 0⟩ ⟨255, 0, 0⟩ 2)[1]? = some ⟨0, 0, 0⟩ ∧
    ¬ (colorDist ⟨0, 0, 0⟩ ⟨255, 0, 0⟩ ≤ colorDist ⟨255, 0, 0⟩ ⟨255, 0, 0⟩) := by
  refine ⟨?_, ?_, by decide⟩
  · rw [gradient_getElem (1/2) ⟨0, 0, 0⟩ ⟨255, 0, 0⟩ 2 0 (by norm_num)]
    have hfac : min (max ((1:ℚ)/2 * ((2:ℕ) : ℚ) - ((0:ℕ) : ℚ)) 0) 1 = 1 := by
      push_cast
      norm_num [min_def, max_def]
    rw [hfac, lerp_color_one]
  · rw [gradient_getElem (1/2) ⟨0, 0, 0⟩ ⟨255, 0, 0⟩ 2 1 (by norm_num)]
    have hfac : min (max ((1:ℚ)/2 * ((2:ℕ) : ℚ) - ((1:ℕ) : ℚ)) 0) 1 = 0 := by
      push_cast
      norm_num [min_def, max_def]
    rw [hfac, lerp_color_zero]

/-- C7 (amended): for every fixed t in [0,1] and n ≥ 1, the gradient sequence
is monotonically non-INCREASING in closeness to the end color e as the LED
index increases (the per-LED factor `clamp(t*n - i, 0, 1)` is antitone in i,
so earlier LEDs are at least as close to e): for i ≤ j the distance to e of
LED i is at most that of LED j. -/
theorem gradient_closeness_antitone (t : ℚ) (s e : Color) (n i j : Nat)
    (ci cj : Color) (hn : 1 ≤ n) (h0 : 0 ≤ t) (h1 : t ≤ 1) (hij : i ≤ j)
    (hi : (generate_gradient_led_colors t s e n)[i]? = some ci)
    (hj : (generate_gradient_led_colors t s e n)[j]? = some cj) :
    colorDist ci e ≤ colorDist cj e := by
  have hilt : i < n := gradient_getElem_lt t s e n i ci hi
  have hjlt : j < n := gradient_getElem_lt t s e n j cj hj
  rw [gradient_getElem t s e n i hilt] at hi
  rw [gradient_getElem t s e n j hjlt] at hj
  obtain rfl : ci = lerp_color (min (max (t * (n : ℚ) - (i : ℚ)) 0) 1) s e :=
    (Option.some.injEq _ _ ▸ hi).symm
  obtain rfl : cj = lerp_color (min (max (t * (n : ℚ) - (j : ℚ)) 0) 1) s e :=
    (Option.some.injEq _ _ ▸ hj).symm
  have hj0 : (0 : ℚ) ≤ min (max (t * (n : ℚ) - (j : ℚ)) 0) 1 :=
    le_min (le_max_right _ _) zero_le_one
  have hi1 : min (max (t * (n : ℚ) - (i : ℚ)) 0) 1 ≤ 1 := min_le_right _ _
  have hji : min (max (t * (n : ℚ) - (j : ℚ)) 0) 1 ≤
      min (max (t * (n : ℚ) - (i : ℚ)) 0) 1 := by
    have hsub : t * (n : ℚ) - (j : ℚ) ≤ t * (n : ℚ) - (i : ℚ) :=
      sub_le_sub_left (by exact_mod_cast hij) _
    exact min_le_min (max_le_max hsub le_rfl) le_rfl
  simp only [colorDist, lerp_color]
  exact Nat.add_le_add
    (Nat.add_le_add
      (chanDist_lerp_antitone _ _ s.r e.r hj0 hji hi1)
      (chanDist_lerp_antitone _ _ s.g e.g hj0 hji hi1))
    (chanDist_lerp_antitone _ _ s.b e.b hj0 hji hi1)

/-- Witness for the amended C7 at t = 1/2, n = 2, i = 0, j = 1. -/
theorem gradient_closeness_antitone_witness :
    colorDist ⟨255, 0, 0⟩ ⟨255, 0, 0⟩ ≤ colorDist ⟨0, 0, 0⟩ ⟨255, 0, 0⟩ :=
  gradient_closeness_antitone (1/2) ⟨0, 0, 0⟩ ⟨255, 0, 0⟩ 2 0 1 ⟨255, 0, 0⟩ ⟨0, 0, 0⟩
    (by norm_num) (by norm_num) (by norm_num) (by norm_num)
    (by
      rw [gradient_getElem (1/2) ⟨0, 0, 0⟩ ⟨255, 0, 0⟩ 2 0 (by norm_num)]
      have hfac : min (max ((1:ℚ)/2 * ((2:ℕ) : ℚ) - ((0:ℕ) : ℚ)) 0) 1 = 1 := by
        push_cast
        norm_num [min_def, max_def]
      rw [hfac, lerp_color_one])
    (by
      rw [gradient_getElem (1/2) ⟨0, 0, 0⟩ ⟨255, 0, 0⟩ 2 1 (by norm_num)]
      have hfac : min (max ((1:ℚ)/2 * ((2:ℕ) : ℚ) - ((1:ℕ) : ℚ)) 0) 1 = 0 := by
        push_cast
        norm_num [min_def, max_def]
      rw [hfac, lerp_color_zero])

/-- C8 counterexample: `generate_block_led_colors` does NOT clamp its
interpolation factor before invoking `lerp_color`.  If it clamped internally,
its result at t = 2 would agree with its result at clamp(2,0,1) = 1; instead
t = 2 is passed straight to `lerp_color`, which extrapolates channel
`(1-2)*0 + 2*100 = 200` past the end color's channel value 100. -/
theorem block_does_not_clamp :
    generate_block_led_colors 2 ⟨0, 0, 0⟩ ⟨100, 0, 0⟩ 1 ≠
      generate_block_led_colors (min (max (2:ℚ) 0) 1) ⟨0, 0, 0⟩ ⟨100, 0, 0⟩ 1 := by
  have hc : min (max (2:ℚ) 0) 1 = 1 := by norm_num [min_def, max_def]
  have h2 : lerp_color 2 ⟨0, 0, 0⟩ ⟨100, 0, 0⟩ = ⟨200, 0, 0⟩ := by
    ext
    · exact congrArg Fin.val (f32toU8_eval _ 200 (by norm_num)
        (by norm_num [lerp, show ((100 : Fin 256).val) = 100 from rfl]))
    · exact congrArg Fin.val (f32toU8_eval _ 0 (by norm_num) (by norm_num [lerp]))
    · exact congrArg Fin.val (f32toU8_eval _ 0 (by norm_num) (by norm_num [lerp]))
  rw [hc]
  simp only [generate_block_led_colors, h2, lerp_color_one]
  decide

/-- C8 (amended): `generate_gradient_led_colors` clamps each per-LED
interpolation factor to [0,1] internally before invoking `lerp_color`, so
every color it produces is `lerp_color` at some factor in [0,1];
`generate_block_led_colors` performs no clamping and passes its `t` argument
to `lerp_color` unchanged (out-of-range factors still yield channels in
[0,255] only because of the saturating u8 cast inside `lerp_color`). -/
theorem clamping_policy (t : ℚ) (s e : Color) (n : Nat) :
    (∀ c ∈ generate_gradient_led_colors t s e n,
        ∃ u, 0 ≤ u ∧ u ≤ 1 ∧ c = lerp_color u s e) ∧
    generate_block_led_colors t s e n = List.replicate n (lerp_color t s e) := by
  refine ⟨fun c hc => ?_, rfl⟩
  simp only [generate_gradient_led_colors, List.mem_map, List.mem_range] at hc
  obtain ⟨i, hi, rfl⟩ := hc
  exact ⟨_, le_min (le_max_right _ _) zero_le_one, min_le_right _ _, rfl⟩

/-- Witness for the amended C8 at t = 2, n = 1, s = black, e = red. -/
theorem clamping_policy_witness :
    ∃ u, 0 ≤ u ∧ u ≤ 1 ∧ (⟨255, 0, 0⟩ : Color) = lerp_color u ⟨0, 0, 0⟩ ⟨255, 0, 0⟩ := by
  have hl : generate_gradient_led_colors 2 ⟨0, 0, 0⟩ ⟨255, 0, 0⟩ 1 = [⟨255, 0, 0⟩] := by
    have hfac : min (max ((2:ℚ) * ((1:ℕ) : ℚ) - ((0:ℕ) : ℚ)) 0) 1 = 1 := by
      push_cast
      norm_num [min_def, max_def]
    simp only [generate_gradient_led_colors, List.range_succ, List.range_zero,
      List.nil_append, List.map_cons, List.map_nil, hfac, lerp_color_one]
  exact (clamping_policy 2 ⟨0, 0, 0⟩ ⟨255, 0, 0⟩ 1).1 ⟨255, 0, 0⟩
    (by rw [hl]; exact List.mem_singleton.2 rfl)

/-- C5: the dispatcher's rule table, for every LED count, zone sizes, CPU and
GPU load and endpoint colors: the memory-module controller ("ENE DRAM") gets
gradient colors with progress 1 - CPU and start/end endpoints swapped; the
discrete-GPU controller ("EVGA GeForce RTX 3080Ti FTW3 Ultra") gets block
colors from the GPU load alone, independent of the CPU load; the motherboard
controller ("X570 AORUS ELITE") with zones [("D_LED1 Bottom", n1),
("D_LED2 Top", n2)] gets the concatenation, in zone order, of block colors
over the bottom zone and gradient colors over the top zone, both from CPU. -/
theorem dispatcher_rule_table (ledCount n1 n2 : Nat) (cpu cpu2 gpu : ℚ)
    (s e : Color) (zs : List Zone) :
    controller_colors cpu gpu s e ⟨"ENE DRAM", zs, ledCount⟩ =
      .ok (generate_gradient_led_colors (1 - cpu) e s ledCount) ∧
    controller_colors cpu gpu s e ⟨"EVGA GeForce RTX 3080Ti FTW3 Ultra", zs, ledCount⟩ =
      .ok (generate_block_led_colors gpu s e ledCount) ∧
    controller_colors cpu gpu s e ⟨"EVGA GeForce RTX 3080Ti FTW3 Ultra", zs, ledCount⟩ =
      controller_colors cpu2 gpu s e ⟨"EVGA GeForce RTX 3080Ti FTW3 Ultra", zs, ledCount⟩ ∧
    controller_colors cpu gpu s e
        ⟨"X570 AORUS ELITE", [⟨"D_LED1 Bottom", n1⟩, ⟨"D_LED2 Top", n2⟩], ledCount⟩ =
      .ok (generate_block_led_colors cpu s e n1 ++
           generate_gradient_led_colors cpu s e n2) := by
  refine ⟨rfl, rfl, rfl, ?_⟩
  show Except.ok (generate_block_led_colors cpu s e n1 ++
      (generate_gradient_led_colors cpu s e n2 ++ ([] : List Color))) = _
  rw [List.append_nil]

/-- C10: the "Motherboard" zone of the motherboard controller computes
`leds_count - 1` in unsigned arithmetic, so its handling is only defined for
a LED count L ≥ 1, where it is a 1-LED block followed by an (L-1)-LED block —
together L identical colors; a zone with 0 LEDs makes the subtraction
underflow (an abort) instead of yielding an empty sequence. -/
theorem motherboard_zone_spec (L : Nat) (cpu : ℚ) (s e : Color) (hL : 1 ≤ L) :
    zone_colors cpu s e ⟨"Motherboard", L⟩ =
      .ok (generate_block_led_colors cpu s e 1 ++
           generate_block_led_colors cpu s e (L - 1)) ∧
    generate_block_led_colors cpu s e 1 ++ generate_block_led_colors cpu s e (L - 1) =
      List.replicate L (lerp_color cpu s e) ∧
    zone_colors cpu s e ⟨"Motherboard", 0⟩ = .error .subUnderflow := by
  refine ⟨?_, ?_, rfl⟩
  · show (if L = 0 then (.error .subUnderflow : Except DispatchAbort (List Color))
        else .ok (generate_block_led_colors cpu s e 1 ++
          generate_block_led_colors cpu s e (L - 1))) = _
    rw [if_neg (by omega)]
  · simp only [generate_block_led_colors]
    rw [← List.replicate_add]
    congr 1
    omega

/-- Witness for C10 at L = 2. -/
theorem motherboard_zone_spec_witness :
    zone_colors 0 ⟨0, 0, 0⟩ ⟨255, 0, 0⟩ ⟨"Motherboard", 2⟩ =
      .ok (generate_block_led_colors 0 ⟨0, 0, 0⟩ ⟨255, 0, 0⟩ 1 ++
           generate_block_led_colors 0 ⟨0, 0, 0⟩ ⟨255, 0, 0⟩ (2 - 1)) :=
  (motherboard_zone_spec 2 0 ⟨0, 0, 0⟩ ⟨255, 0, 0⟩ (by norm_num)).1

/-- C1 evaluation: for the motherboard controller ("X570 AORUS ELITE"), a zone
whose name matches none of the enumerated cases ("D_LED1 Bottom",
"D_LED2 Top", "Motherboard") makes the dispatcher hit `panic!("Unknown
zone!")` — a process abort, modelled by the abort outcome
`.error .panicUnknownZone` — rather than surfacing a distinct recoverable
error value for that controller's update as the claim requires. -/
theorem unknown_zone_panics :
    controller_colors 0 0 ⟨255, 255, 255⟩ ⟨255, 0, 0⟩
      ⟨"X570 AORUS ELITE", [⟨"LED C1", 3⟩], 3⟩ = .error .panicUnknownZone := rfl

/-! Ring-buffer lemmas for the Smoothed Sampler. -/

lemma foldl_add_eq (l : List ℚ) (a : ℚ) :
    l.foldl (fun accum sample => accum + sample) a = a + l.sum := by
  induction l generalizing a with
  | nil => simp
  | cons x rest ih =>
      simp only [List.foldl_cons, List.sum_cons, ih]
      ring

lemma sample_sum_eq (l : List ℚ) : sample_sum l = l.sum := by
  simp [sample_sum, foldl_add_eq]

lemma ring_push_all_append (c : Nat) (b xs ys : List ℚ) :
    ring_push_all c b (xs ++ ys) = ring_push_all c (ring_push_all c b xs) ys := by
  simp [ring_push_all, List.foldl_append]

lemma ring_push_all_of_le (c : Nat) (buf xs : List ℚ)
    (h : buf.length + xs.length ≤ c) :
    ring_push_all c buf xs = buf ++ xs := by
  induction xs generalizing buf with
  | nil => simp [ring_push_all]
  | cons x rest ih =>
      have hlt : buf.length < c := by
        simp only [List.length_cons] at h
        omega
      show ring_push_all c (ring_push c buf x) rest = _
      rw [ring_push, if_pos hlt, ih (buf ++ [x])
        (by simp only [List.length_append, List.length_singleton, List.length_nil,
              List.length_cons] at h ⊢; omega)]
      simp

lemma ring_push_all_overflow_one (c : Nat) (xs : List ℚ) (z : ℚ)
    (hlen : xs.length = c) :
    ring_push_all c [] (xs ++ [z]) = xs.tail ++ [z] := by
  have h1 : ring_push_all c [] xs = xs :=
    ring_push_all_of_le c [] xs (by simp [hlen])
  rw [ring_push_all_append, h1]
  show ring_push c xs z = _
  rw [ring_push, if_neg (by omega)]

/-- C4 counterexample: reading the smoothed signal when no sample has ever
been pushed does not yield 0 — the code divides the defaulted sum 0 by the
length 0 in f32, and 0.0/0.0 is NaN (modelled `none`), not 0. -/
theorem empty_read_not_zero :
    buffer_mean (ring_push_all (next_power_of_two SAMPLE_BUFFER_SIZE) [] []) = none ∧
    (none : Option ℚ) ≠ some 0 :=
  ⟨rfl, by simp⟩

/-- C4 (amended): for capacity c ≥ 1, pushing a1..ak (1 ≤ k ≤ c) into an
empty buffer and reading yields their arithmetic mean; pushing c+1 samples
evicts the oldest, which is excluded from the mean; but reading while no
sample has ever been pushed yields NaN (modelled `none`), not 0, because the
defaulted sum 0 is divided by the f32 length 0 (the control loop always
pushes before reading, so this state is never read in practice). -/
theorem smoothing_read_spec (c : Nat) (xs : List ℚ) (hc : 1 ≤ c) :
    (1 ≤ xs.length → xs.length ≤ c →
      buffer_mean (ring_push_all c [] xs) = some (xs.sum / (xs.length : ℚ))) ∧
    (xs.length = c + 1 →
      buffer_mean (ring_push_all c [] xs) = some (xs.tail.sum / (c : ℚ))) ∧
    buffer_mean [] = none := by
  refine ⟨fun h1 h2 => ?_, fun hlen => ?_, rfl⟩
  · rw [ring_push_all_of_le c [] xs (by simpa using h2), List.nil_append,
      buffer_mean, if_neg (by omega), sample_sum_eq]
  · rcases List.eq_nil_or_concat xs with rfl | ⟨ys, z, rfl⟩
    · simp at hlen
    · rw [List.concat_eq_append] at hlen ⊢
      have hys : ys.length = c := by
        simp only [List.length_append, List.length_singleton] at hlen
        omega
      rw [ring_push_all_overflow_one c ys z hys]
      have hne : ys ≠ [] := by
        intro h
        rw [h] at hys
        simp at hys
        omega
      obtain ⟨y, ys', rfl⟩ := List.exists_cons_of_ne_nil hne
      simp only [List.cons_append, List.tail_cons]
      rw [buffer_mean, if_neg (by simp), sample_sum_eq]
      have hlen' : ((ys' ++ [z]).length : ℚ) = (c : ℚ) := by
        simp only [List.length_cons] at hys
        simp only [List.length_append, List.length_singleton]
        exact_mod_cast by omega
      rw [hlen']

/-- Witness for the amended C4 at c = 2, samples [1, 2] and [1, 2, 3]. -/
theorem smoothing_read_spec_witness :
    buffer_mean (ring_push_all 2 [] [1, 2]) =
      some (([1, 2] : List ℚ).sum / ((([1, 2] : List ℚ).length : ℕ) : ℚ)) ∧
    buffer_mean (ring_push_all 2 [] [1, 2, 3]) =
      some (([1, 2, 3] : List ℚ).tail.sum / ((2 : ℕ) : ℚ)) :=
  ⟨(smoothing_read_spec 2 [1, 2] (by norm_num)).1 (by norm_num) (by norm_num),
   (smoothing_read_spec 2 [1, 2, 3] (by norm_num)).2.1 (by norm_num)⟩

/-! Control-loop lemmas and claims. -/

lemma interactive_cycles_err (cycles : List Bool) (hf : false ∈ cycles) :
    (interactive_cycles cycles).1 = .err := by
  induction cycles with
  | nil => cases hf
  | cons ok rest ih =>
      cases ok
      · simp [interactive_cycles]
      · have hrest : false ∈ rest := by simpa using hf
        simpa [interactive_cycles] using ih hrest

lemma connect_retry_succeeds (pre : List Bool) :
    connect_retry (pre ++ [true]) = true := by
  induction pre with
  | nil => rfl
  | cons ok rest ih =>
      by_cases hok : ok = true
      · simp only [List.cons_append, connect_retry, hok, if_true]
      · simp only [List.cons_append, connect_retry, hok, if_false]
        exact ih

/-- C2 counterexample: with one successful connect attempt and a single
failing sampling cycle, `main` (interactive mode) ends with an error result —
`launch_client` returns the error and `main`'s `?` propagates it, terminating
the process — instead of transitioning back to Disconnected and restarting
the connect/initialize sequence with fresh sampler buffers. -/
theorem interactive_cycle_error_terminates :
    main_interactive [true] [false] = (.err, 1) := rfl

/-- C2 (amended): in interactive mode a failed connect attempt is retried
indefinitely (a trace whose last attempt succeeds always connects), but an
I/O failure in any sampling cycle makes `launch_client` return an error
rather than reconnecting; `main` propagates that error, so the process
terminates.  No restart of the connect/initialize sequence and no fresh
sampler allocation happens after a cycle failure. -/
theorem cycle_failure_aborts_launch (conns cycles : List Bool)
    (hc : connect_retry conns = true) (hf : false ∈ cycles) :
    (main_interactive conns cycles).1 = .err := by
  show (launch_client_interactive conns cycles).1 = .err
  rw [launch_client_interactive, if_pos hc]
  exact interactive_cycles_err cycles hf

/-- Witness for the amended C2: connect trace [false, true] (first attempt
fails, retry succeeds), cycle trace [true, false]. -/
theorem cycle_failure_aborts_launch_witness :
    (main_interactive [false, true] [true, false]).1 = .err :=
  cycle_failure_aborts_launch [false, true] [true, false]
    (connect_retry_succeeds [false]) (by decide)

lemma service_sample_loop_append (pre post : List CycleEvent)
    (h : (service_sample_loop pre).1 = .pending) :
    service_sample_loop (pre ++ post) =
      ((service_sample_loop post).1,
        (service_sample_loop pre).2 + (service_sample_loop post).2) := by
  induction pre with
  | nil => simp [service_sample_loop]
  | cons ev rest ih =>
      obtain ⟨f, nw, okc⟩ := ev
      cases f
      · cases nw
        · cases okc
          · simp [service_sample_loop] at h
          · have h' : (service_sample_loop rest).1 = .pending := by
              simpa [service_sample_loop] using h
            simp only [List.cons_append]
            simp [service_sample_loop, ih h']
            omega
        · have h' : (service_sample_loop rest).1 = .pending := by
            simpa [service_sample_loop] using h
          simp only [List.cons_append]
          simpa [service_sample_loop] using ih h'
      · simp [service_sample_loop] at h

/-- C3: in service mode, once the shutdown flag is set, the check at the next
suspension point — before connecting (connect loop) or before the next
sampling cycle (sampling loop) — returns without any further
`sample_and_set` invocation (hence no further controller LED write), and
`launch_client` completes with a clean Ok result. -/
theorem service_stop_clean_exit
    (conns : List ConnEvent) (cv : ConnEvent) (crest : List ConnEvent)
    (cycles pre post : List CycleEvent) (ev : CycleEvent)
    (hcv : cv.flag = true)
    (hconn : connect_phase conns = .connected)
    (hpre : (service_sample_loop pre).1 = .pending)
    (hev : ev.flag = true) :
    launch_client_service (cv :: crest) cycles = (.ok, 0) ∧
    launch_client_service conns (pre ++ ev :: post) =
      (.ok, (service_sample_loop pre).2) := by
  constructor
  · have h1 : connect_phase (cv :: crest) = .stopped := by
      simp only [connect_phase, hcv, if_true]
    rw [launch_client_service, h1]
  · have h2 : service_sample_loop (ev :: post) = (.ok, 0) := by
      simp only [service_sample_loop, hev, if_true]
    rw [launch_client_service, hconn]
    show service_sample_loop (pre ++ ev :: post) = _
    rw [service_sample_loop_append pre (ev :: post) hpre, h2]
    simp

/-- Witness for C3: flag set at the first connect check (first conjunct); one
successful cycle, then the flag observed set at the next cycle check (second
conjunct: exit Ok with exactly the one pre-stop write). -/
theorem service_stop_clean_exit_witness :
    launch_client_service [⟨true, false, false⟩] [⟨false, false, true⟩] = (.ok, 0) ∧
    launch_client_service [⟨false, false, true⟩]
      ([⟨false, false, true⟩] ++ ⟨true, false, true⟩ :: []) =
      (.ok, (service_sample_loop [⟨false, false, true⟩]).2) :=
  service_stop_clean_exit [⟨false, false, true⟩] ⟨true, false, false⟩ []
    [⟨false, false, true⟩] [⟨false, false, true⟩] [] ⟨true, false, true⟩
    rfl rfl rfl rfl

end ORGB
